import Mathlib

/-!
Shallow embedding of the avrora-deepresearch core: the research controller
`perform_deep_research` (src/research_logic.py) together with the component
functions it calls: `generate_search_queries`, `summarize_and_find_directions`,
`generate_final_report` (src/utils/llm.py), `find_urls` (src/utils/search.py)
and `scrape_content` (src/utils/scraper.py).

External collaborators (the Gemini API, the DuckDuckGo provider, the HTTP
fetcher/HTML parser, and the stdlib JSON decoder) are modelled as oracle
inputs carried by an `Env` structure: each call site reads the collaborator's
behaviour for that call from the environment.  Raised Python exceptions are
modelled as `Except.error`; the controller loop threads its mutable session
state (`RState`) explicitly, with ghost trace fields (`scrapeTrace`,
`qgenCalls`, `synthTrace`) recording the extractor invocations, the number of
Query-Expander calls and the successive synthesis results, without affecting
behaviour.
-/

namespace Avrora

/-- Outcome of one `model.generate_content_async` call as seen by
`_call_gemini_api` (src/utils/llm.py lines 64-80): either the API responded
(with or without `response.parts`; `text` is `response.text` when parts are
present), or the call raised an exception. -/
inductive GeminiOutcome where
  | response (hasParts : Bool) (text : String)
  | exn
deriving DecidableEq, Repr

/-- `_call_gemini_api` (src/utils/llm.py lines 64-80): returns `response.text`
when the response has parts, the empty string when the response was blocked
(no parts), and re-raises any exception (`raise` on line 80). -/
def callGeminiApi : GeminiOutcome → Except Unit String
  | GeminiOutcome.response true t => Except.ok t
  | GeminiOutcome.response false _ => Except.ok ""
  | GeminiOutcome.exn => Except.error ()

/-- A Python value as relevant to the `json.loads` result inspected by
`summarize_and_find_directions` (src/utils/llm.py lines 151-162): the code
checks for a dict whose `learnings` and `directions` entries are lists (of
strings, per the declared `Dict[str, List[str]]` type). -/
inductive PyValue where
  | pstr (s : String)
  | plist (xs : List String)
  | pdict (fields : List (String × PyValue))
  | pnone

/-- Python `dict.get` on the field list of a decoded JSON object. -/
def pyGet : List (String × PyValue) → String → Option PyValue
  | [], _ => none
  | (k, v) :: rest, key => if k = key then some v else pyGet rest key

/-- Python `str.split(sep-char)` generalised over the separator predicate:
cut the character list at every matching character, keeping empty pieces
(structural recursion so that concrete runs reduce in the kernel). -/
def splitOnPredAux (p : Char → Bool) : List Char → List Char → List String
  | [], acc => [String.mk acc.reverse]
  | c :: rest, acc =>
    if p c then String.mk acc.reverse :: splitOnPredAux p rest []
    else splitOnPredAux p rest (c :: acc)

/-- Split a string at every character satisfying `p`, keeping empty pieces. -/
def pySplit (p : Char → Bool) (s : String) : List String :=
  splitOnPredAux p s.data []

/-- Python `str.strip()`: drop leading and trailing whitespace. -/
def pyStrip (s : String) : String :=
  String.mk (((s.data.dropWhile Char.isWhitespace).reverse.dropWhile
    Char.isWhitespace).reverse)

/-- Python `str.lower()` (ASCII case folding, as used on HTTP headers). -/
def pyLower (s : String) : String :=
  String.mk (s.data.map Char.toLower)

/-- Python `'sep'.join(xs)`. -/
def joinWith (sep : String) : List String → String
  | [] => ""
  | [x] => x
  | x :: y :: xs => x ++ sep ++ joinWith sep (y :: xs)

/-- Python substring containment `pat in s` on character lists. -/
def containsSub (pat : List Char) : List Char → Bool
  | [] => decide (pat = [])
  | c :: rest => pat.isPrefixOf (c :: rest) || containsSub pat rest

/-- The line parsing in `generate_search_queries` (src/utils/llm.py line 102):
`[q.strip() for q in response_text.split('\n') if q.strip()]`. -/
def parseQueries (t : String) : List String :=
  ((pySplit (fun c => c = '\n') t).map pyStrip).filter (fun q => q ≠ "")

/-- The query list `generate_search_queries` produces from a given API
outcome: the parsed lines truncated to `breadth` (line 105), or nothing
when the API call raised. -/
def queriesFor (o : GeminiOutcome) (breadth : Nat) : List String :=
  match callGeminiApi o with
  | Except.ok t => (parseQueries t).take breadth
  | Except.error _ => []

/-- `generate_search_queries` (src/utils/llm.py lines 82-105).  The `context`
and `learnings` arguments only shape the prompt (the prompt shows at most the
last 5 learnings), so they do not influence the returned list; a raised API
error propagates (there is no try/except around `_call_gemini_api`). -/
def generate_search_queries (context : String) (learnings : List String)
    (breadth : Nat) (o : GeminiOutcome) : Except Unit (List String) :=
  (callGeminiApi o).map (fun t => (parseQueries t).take breadth)

/-- `summarize_and_find_directions` (src/utils/llm.py lines 107-177).
`jsonLoads` is the stdlib JSON decoder applied to the response text (`none`
models a `json.JSONDecodeError`; the recovery branch returns the empty
guesses).  The input text is truncated to 30000 characters before being put
in the prompt (lines 110-113); the truncated text only shapes the prompt.
A raised API error propagates (the try on line 151 only wraps the parsing). -/
def summarize_and_find_directions (jsonLoads : String → Option PyValue)
    (o : GeminiOutcome) (context : String) (learnings : List String)
    (text_to_analyze : String) : Except Unit (List String × List String) :=
  let _truncated := text_to_analyze.take 30000
  (callGeminiApi o).map (fun responseText =>
    match jsonLoads responseText with
    | some (PyValue.pdict fields) =>
      match pyGet fields "learnings", pyGet fields "directions" with
      | some (PyValue.plist ls), some (PyValue.plist ds) => (ls, ds)
      | _, _ => ([], [])
    | _ => ([], []))

/-- The fixed no-information document of `generate_final_report`
(src/utils/llm.py line 183). -/
def noInfoReport (query : String) : String :=
  "# Исследование по запросу: " ++ query ++
    "\n\nНе удалось собрать информацию по данному запросу."

/-- The deterministic fallback document of `generate_final_report`
(src/utils/llm.py line 208): an explanatory line followed by each finding as
a bullet. -/
def fallbackReport (all_learnings : List String) : String :=
  "# Отчет не сгенерирован\n\nGemini не вернул текст отчета.\n\nСобранные выводы:\n" ++
    joinWith "\n" (all_learnings.map (fun l => "- " ++ l))

/-- `generate_final_report` (src/utils/llm.py lines 179-208): empty findings
short-circuit to the fixed template without touching the model; an empty
model response yields the fallback document; a raised API error propagates
(no try/except around `_call_gemini_api` on line 207). -/
def generate_final_report (o : GeminiOutcome) (query : String)
    (all_learnings : List String) : Except Unit String :=
  if all_learnings = [] then Except.ok (noInfoReport query)
  else
    (callGeminiApi o).map (fun report =>
      if report = "" then fallbackReport all_learnings else report)

/-- Outcome of one `DDGS().text(...)` provider call in `find_urls`
(src/utils/search.py): either the provider raised, or it yielded a list of
raw results, each reduced to its `href` when the result is a truthy dict
containing one (`none` models a falsy/malformed entry, line 30). -/
inductive SearchOutcome where
  | exn
  | raw (results : List (Option String))
deriving DecidableEq, Repr

/-- The collection loop of `find_urls` (src/utils/search.py lines 29-33):
append each `href`, stopping as soon as `num_results` URLs are collected. -/
def collectHrefs (numResults : Nat) : List (Option String) → List String → List String
  | [], acc => acc
  | none :: rest, acc => collectHrefs numResults rest acc
  | some h :: rest, acc =>
    if numResults ≤ acc.length + 1 then acc ++ [h]
    else collectHrefs numResults rest (acc ++ [h])

/-- `find_urls` (src/utils/search.py lines 12-40): a provider exception is
swallowed and yields the empty list; otherwise the hrefs are collected up to
`num_results`. -/
def find_urls (o : SearchOutcome) (num_results : Nat) : List String :=
  match o with
  | SearchOutcome.exn => []
  | SearchOutcome.raw rs => collectHrefs num_results rs []

/-- Outcome of the HTTP fetch and HTML parse inside `scrape_content`
(src/utils/scraper.py): a raised `HTTPStatusError` (non-2xx, line 68), a
raised `RequestError` (network, line 71), any other raised exception (parse
error, line 75), or a parsed response carrying the `content-type` header and
the parsed `<body>` (`none` when the page has no body element, line 45),
where the body is the document-order list of (tag name, raw inner text)
elements remaining after the `decompose` pass. -/
inductive ScrapeOutcome where
  | httpStatusError
  | requestError
  | otherError
  | response (contentType : String) (body : Option (List (String × String)))
deriving DecidableEq, Repr

/-- The content tags harvested by `scrape_content`
(src/utils/scraper.py line 52). -/
def contentTags : List String := ["p", "h1", "h2", "h3", "h4", "h5", "h6", "li"]

/-- `' '.join(tag.get_text(separator=' ', strip=True).split())`
(src/utils/scraper.py line 54): whitespace-normalisation of one tag's text
(Python `str.split()` with no argument drops the empty pieces). -/
def cleanTagText (s : String) : String :=
  joinWith " " ((pySplit Char.isWhitespace s).filter (fun p => p ≠ ""))

/-- The text-part harvest of `scrape_content` (src/utils/scraper.py
lines 51-56): the cleaned, non-empty texts of the content tags, in document
order. -/
def extractTextParts (body : List (String × String)) : List String :=
  ((body.filter (fun t => contentTags.contains t.1)).map
    (fun t => cleanTagText t.2)).filter (fun s => s ≠ "")

/-- `scrape_content` (src/utils/scraper.py lines 14-78): every failure mode
(HTTP status error, network error, other exception, non-HTML content type,
missing body, empty extracted text) collapses to `none`; success returns the
`{'url': url, 'text': extracted_text}` pair.  The content-type test models
Python's `"html" not in content_type` on the lower-cased header. -/
def scrape_content (url : String) (o : ScrapeOutcome) : Option (String × String) :=
  match o with
  | ScrapeOutcome.httpStatusError => none
  | ScrapeOutcome.requestError => none
  | ScrapeOutcome.otherError => none
  | ScrapeOutcome.response contentType body =>
    if containsSub "html".data (pyLower contentType).data then
      match body with
      | none => none
      | some elems =>
        let extracted := joinWith "\n" (extractTextParts elems)
        if extracted = "" then none else some (url, extracted)
    else none

/-- The external world for one research run: the Gemini responses for the
i-th iteration's query-generation and synthesis calls, the search provider's
outcome for the k-th query of iteration i, the fetch outcome for a URL
scraped during iteration i, the JSON decoder, and the Gemini response for
the final report call. -/
structure Env where
  qgen : Nat → GeminiOutcome
  searchRaw : Nat → Nat → SearchOutcome
  scrape : Nat → String → ScrapeOutcome
  synth : Nat → GeminiOutcome
  jsonLoads : String → Option PyValue
  report : GeminiOutcome

/-- The controller's mutable session state (src/research_logic.py
lines 20-24) plus ghost trace fields: `scrapeTrace` records every URL ever
passed to `scrape_content`, `qgenCalls` counts the Query-Expander calls,
`synthTrace` records the directions list of each completed synthesis. -/
structure RState where
  all_learnings : List String
  visited_urls : List String
  all_sources : List String
  final_directions : List String
  scrapeTrace : List String
  qgenCalls : Nat
  synthTrace : List (List String)
deriving DecidableEq, Repr

/-- The controller's initial state (src/research_logic.py lines 20-24):
`all_learnings = list(existing_learnings)`, everything else empty. -/
def initState (existing : List String) : RState :=
  { all_learnings := existing
    visited_urls := []
    all_sources := []
    final_directions := []
    scrapeTrace := []
    qgenCalls := 0
    synthTrace := [] }

/-- The session state reached by a (possibly aborted) computation: an
`Except.error` carries the state at the point where the exception escaped. -/
def stateOf : Except RState RState → RState
  | Except.ok st => st
  | Except.error st => st

/-- The dedup filter of the controller (src/research_logic.py lines 42-46):
walk the flattened search results, appending each unseen URL to both
`urls_to_scrape` and `visited_urls` in one step. -/
def addNewUrls : List String → List String → List String → List String × List String
  | [], ts, vis => (ts, vis)
  | u :: rest, ts, vis =>
    if u ∈ vis then addNewUrls rest ts vis
    else addNewUrls rest (ts ++ [u]) (vis ++ [u])

/-- Entry point of the dedup filter: start from an empty `urls_to_scrape`. -/
def dedupNewUrls (visited : List String) (urls : List String) :
    List String × List String :=
  addNewUrls urls [] visited

/-- The scraped-result filter of the controller (src/research_logic.py
lines 61-64): keep a result only when it is a dict with a truthy `text`. -/
def controllerFilter (r : Option (String × String)) : Option (String × String) :=
  match r with
  | some d => if d.2 = "" then none else some d
  | none => none

/-- The successful scrape results of iteration `i` for the given batch of
URLs (src/research_logic.py lines 56-64). -/
def scrapedDataFor (env : Env) (i : Nat) (urls : List String) :
    List (String × String) :=
  (urls.map (fun url => scrape_content url (env.scrape i url))).filterMap
    controllerFilter

/-- Steps 3b-4 of one controller iteration (src/research_logic.py
lines 73-92): extend `all_sources` with the successful URLs, synthesize over
the joined text (the learnings passed to the synthesizer are the ones
accumulated before this iteration's append), then append the new learnings
and overwrite the directions.  A raised synthesis error escapes with the
state as already updated (`all_sources.extend` on line 73 precedes the
call). -/
def synthPhase (env : Env) (q0 : String) (i : Nat) (st : RState)
    (scraped_data : List (String × String)) : Except RState RState :=
  match summarize_and_find_directions env.jsonLoads (env.synth i) q0
      st.all_learnings (joinWith "\n\n---\n\n" (scraped_data.map Prod.snd)) with
  | Except.error _ =>
    Except.error { st with all_sources := st.all_sources ++ scraped_data.map Prod.fst }
  | Except.ok (new_learnings, next_directions) =>
    Except.ok { st with
      all_sources := st.all_sources ++ scraped_data.map Prod.fst
      all_learnings := st.all_learnings ++ new_learnings
      final_directions := next_directions
      synthTrace := st.synthTrace ++ [next_directions] }

/-- Step 3 of one controller iteration (src/research_logic.py lines 54-70):
scrape every new URL (recorded in the ghost `scrapeTrace`), keep the
successes, and skip synthesis when none succeeded. -/
def extractPhase (env : Env) (q0 : String) (i : Nat) (st : RState)
    (urls_to_scrape : List String) : Except RState RState :=
  if scrapedDataFor env i urls_to_scrape = [] then
    Except.ok { st with scrapeTrace := st.scrapeTrace ++ urls_to_scrape }
  else
    synthPhase env q0 i { st with scrapeTrace := st.scrapeTrace ++ urls_to_scrape }
      (scrapedDataFor env i urls_to_scrape)

/-- Ghost bookkeeping: one Query-Expander call was made. -/
def bumpQgen (st : RState) : RState :=
  { st with qgenCalls := st.qgenCalls + 1 }

/-- Steps 2-3a of one controller iteration (src/research_logic.py
lines 38-52): search for each generated query, flatten, dedup-filter against
`visited_urls`, and skip the iteration when no new URL survives. -/
def stepAfterQueries (env : Env) (q0 : String) (i : Nat) (st : RState)
    (search_queries : List String) : Except RState RState :=
  let results := (List.range search_queries.length).map
    (fun k => find_urls (env.searchRaw i k) 2)
  let p := dedupNewUrls st.visited_urls results.flatten
  if p.1 = [] then Except.ok { st with visited_urls := p.2 }
  else extractPhase env q0 i { st with visited_urls := p.2 } p.1

/-- One iteration of the controller loop (src/research_logic.py
lines 26-92): generate queries, search, dedup-filter the URLs, then scrape
and synthesize unless starved.  The query-generation context stays the
original query throughout (line 23 is never reassigned). -/
def researchIter (env : Env) (q0 : String) (breadth : Nat) (st : RState)
    (i : Nat) : Except RState RState :=
  match generate_search_queries q0 st.all_learnings breadth (env.qgen i) with
  | Except.error _ => Except.error (bumpQgen st)
  | Except.ok search_queries =>
    stepAfterQueries env q0 i (bumpQgen st) search_queries

/-- The controller loop from iteration index `i`, `n` iterations remaining. -/
def loopFrom (env : Env) (q0 : String) (breadth : Nat) :
    Nat → Nat → RState → Except RState RState
  | _, 0, st => Except.ok st
  | i, n + 1, st =>
    match researchIter env q0 breadth st i with
    | Except.error st' => Except.error st'
    | Except.ok st' => loopFrom env q0 breadth (i + 1) n st'

/-- `for i in range(depth)` (src/research_logic.py line 26). -/
def runLoop (env : Env) (q0 : String) (breadth depth : Nat) (st0 : RState) :
    Except RState RState :=
  loopFrom env q0 breadth 0 depth st0

/-- The tuple returned by `perform_deep_research`
(src/research_logic.py line 98). -/
structure ResearchOutcome where
  report : String
  sources : List String
  findings : List String
  directions : List String
deriving DecidableEq, Repr

/-- `perform_deep_research` (src/research_logic.py lines 5-98): default the
existing learnings, run the loop, compose the final report, and return
`(final_report, list(set(all_sources)), all_learnings, final_directions)`.
`list(set(...))` is modelled by `List.dedup` (same membership).  Any raised
exception escaping the loop or the report call propagates to the caller. -/
def perform_deep_research (env : Env) (initial_query : String)
    (depth breadth : Nat) (existing_learnings : Option (List String)) :
    Except Unit ResearchOutcome :=
  let existing := existing_learnings.getD []
  match runLoop env initial_query breadth depth (initState existing) with
  | Except.error _ => Except.error ()
  | Except.ok st =>
    (generate_final_report env.report initial_query st.all_learnings).map
      (fun final_report =>
        { report := final_report
          sources := st.all_sources.dedup
          findings := st.all_learnings
          directions := st.final_directions })

/-! ### Concrete environments used for witnesses and counterexamples -/

/-- An environment in which one iteration runs the full pipeline: one
generated query, one search hit, a successful scrape, a well-formed
synthesis response and a successful report call. -/
def happyEnv : Env :=
  { qgen := fun _ => GeminiOutcome.response true "q1"
    searchRaw := fun _ _ => SearchOutcome.raw [some "u1"]
    scrape := fun _ _ => ScrapeOutcome.response "text/html" (some [("p", "hello world")])
    synth := fun _ => GeminiOutcome.response true "J"
    jsonLoads := fun s =>
      if s = "J" then
        some (PyValue.pdict [("learnings", PyValue.plist ["L1"]),
                             ("directions", PyValue.plist ["D1"])])
      else none
    report := GeminiOutcome.response true "R" }

/-- An environment in which every search-provider call raises (and is
recovered to an empty URL list), so every iteration starves. -/
def starveEnv : Env :=
  { qgen := fun _ => GeminiOutcome.response true "q1"
    searchRaw := fun _ _ => SearchOutcome.exn
    scrape := fun _ _ => ScrapeOutcome.httpStatusError
    synth := fun _ => GeminiOutcome.response true "J"
    jsonLoads := fun _ => none
    report := GeminiOutcome.response true "R" }

/-- An environment in which the pipeline reaches synthesis and the synthesis
API call raises a transport error. -/
def synthErrEnv : Env :=
  { qgen := fun _ => GeminiOutcome.response true "q1"
    searchRaw := fun _ _ => SearchOutcome.raw [some "u1"]
    scrape := fun _ _ => ScrapeOutcome.response "text/html" (some [("p", "hello world")])
    synth := fun _ => GeminiOutcome.exn
    jsonLoads := fun _ => none
    report := GeminiOutcome.response true "R" }

/-! ### Helper lemmas -/

@[simp] theorem except_map_ok {α β ε : Type} (f : α → β) (a : α) :
    Except.map f (Except.ok a : Except ε α) = Except.ok (f a) := rfl

@[simp] theorem except_map_error {α β ε : Type} (f : α → β) (e : ε) :
    Except.map f (Except.error e : Except ε α) = Except.error e := rfl

@[simp] theorem stateOf_ok (st : RState) : stateOf (Except.ok st) = st := rfl

@[simp] theorem stateOf_error (st : RState) : stateOf (Except.error st) = st := rfl

theorem callGeminiApi_ok_of_ne_exn (o : GeminiOutcome)
    (h : o ≠ GeminiOutcome.exn) : ∃ t, callGeminiApi o = Except.ok t := by
  cases o with
  | response hasParts t =>
    cases hasParts
    · exact ⟨"", rfl⟩
    · exact ⟨t, rfl⟩
  | exn => exact absurd rfl h

theorem generate_search_queries_eq (c : String) (l : List String) (b : Nat)
    (o : GeminiOutcome) (h : o ≠ GeminiOutcome.exn) :
    generate_search_queries c l b o = Except.ok (queriesFor o b) := by
  obtain ⟨t, ht⟩ := callGeminiApi_ok_of_ne_exn o h
  simp [generate_search_queries, queriesFor, ht]

theorem generate_search_queries_exn (c : String) (l : List String) (b : Nat) :
    generate_search_queries c l b GeminiOutcome.exn = Except.error () := rfl

theorem summarize_ok_of_ne_exn (jl : String → Option PyValue)
    (o : GeminiOutcome) (c : String) (l : List String) (txt : String)
    (h : o ≠ GeminiOutcome.exn) :
    ∃ r, summarize_and_find_directions jl o c l txt = Except.ok r := by
  obtain ⟨t, ht⟩ := callGeminiApi_ok_of_ne_exn o h
  simp only [summarize_and_find_directions, ht, except_map_ok]
  exact ⟨_, rfl⟩

theorem generate_final_report_ok_of_ne_exn (o : GeminiOutcome) (q : String)
    (ls : List String) (h : o ≠ GeminiOutcome.exn) :
    ∃ r, generate_final_report o q ls = Except.ok r := by
  by_cases hls : ls = []
  · exact ⟨noInfoReport q, by simp [generate_final_report, hls]⟩
  · obtain ⟨t, ht⟩ := callGeminiApi_ok_of_ne_exn o h
    simp only [generate_final_report, if_neg hls, ht, except_map_ok]
    exact ⟨_, rfl⟩

theorem addNewUrls_spec : ∀ (urls ts vis : List String),
    ∃ add, addNewUrls urls ts vis = (ts ++ add, vis ++ add) ∧
      add.Nodup ∧ ∀ u ∈ add, u ∉ vis := by
  intro urls
  induction urls with
  | nil => exact fun ts vis => ⟨[], by simp [addNewUrls]⟩
  | cons u rest ih =>
    intro ts vis
    by_cases h : u ∈ vis
    · obtain ⟨add, h1, h2, h3⟩ := ih ts vis
      exact ⟨add, by simp [addNewUrls, h, h1], h2, h3⟩
    · obtain ⟨add, h1, h2, h3⟩ := ih (ts ++ [u]) (vis ++ [u])
      refine ⟨u :: add, ?_, ?_, ?_⟩
      · simp only [addNewUrls, if_neg h, h1]
        simp
      · refine List.nodup_cons.mpr ⟨fun hu => ?_, h2⟩
        exact (h3 u hu) (by simp)
      · intro v hv
        rcases List.mem_cons.mp hv with hv | hv
        · subst hv; exact h
        · intro hvvis
          exact (h3 v hv) (by simp [hvvis])

theorem scrape_content_some_fst (u : String) (o : ScrapeOutcome)
    (d : String × String) (h : scrape_content u o = some d) : d.1 = u := by
  cases o with
  | httpStatusError => simp [scrape_content] at h
  | requestError => simp [scrape_content] at h
  | otherError => simp [scrape_content] at h
  | response ct body =>
    simp only [scrape_content] at h
    split at h
    · cases body with
      | none => simp at h
      | some elems =>
        simp only [] at h
        split at h
        · exact absurd h (by simp)
        · cases h
          rfl
    · exact absurd h (by simp)

theorem controllerFilter_some (r : Option (String × String))
    (d : String × String) (h : controllerFilter r = some d) : r = some d := by
  cases r with
  | none => simp [controllerFilter] at h
  | some d0 =>
    simp only [controllerFilter] at h
    split at h
    · exact absurd h (by simp)
    · cases h
      rfl

theorem scrapedDataFor_fst_mem (env : Env) (i : Nat) (urls : List String)
    (d : String × String) (h : d ∈ scrapedDataFor env i urls) : d.1 ∈ urls := by
  simp only [scrapedDataFor, List.mem_filterMap, List.mem_map] at h
  obtain ⟨r, ⟨u, hu, hr⟩, hfr⟩ := h
  have hrd : r = some d := controllerFilter_some r d hfr
  subst hrd
  have := scrape_content_some_fst u (env.scrape i u) d hr
  rw [this]
  exact hu

theorem synthPhase_shape (env : Env) (q0 : String) (i : Nat) (st : RState)
    (data : List (String × String)) :
    ∃ tail,
      (stateOf (synthPhase env q0 i st data)).visited_urls = st.visited_urls ∧
      (stateOf (synthPhase env q0 i st data)).scrapeTrace = st.scrapeTrace ∧
      (stateOf (synthPhase env q0 i st data)).qgenCalls = st.qgenCalls ∧
      (stateOf (synthPhase env q0 i st data)).all_sources
        = st.all_sources ++ data.map Prod.fst ∧
      (stateOf (synthPhase env q0 i st data)).all_learnings
        = st.all_learnings ++ tail ∧
      (((stateOf (synthPhase env q0 i st data)).final_directions
          = st.final_directions ∧
        (stateOf (synthPhase env q0 i st data)).synthTrace = st.synthTrace) ∨
       (stateOf (synthPhase env q0 i st data)).synthTrace
          = st.synthTrace
              ++ [(stateOf (synthPhase env q0 i st data)).final_directions]) := by
  cases hs : summarize_and_find_directions env.jsonLoads (env.synth i) q0
      st.all_learnings (joinWith "\n\n---\n\n" (data.map Prod.snd)) with
  | error e =>
    refine ⟨[], ?_⟩
    simp [synthPhase, hs]
  | ok p =>
    obtain ⟨nl, nd⟩ := p
    refine ⟨nl, ?_⟩
    simp [synthPhase, hs]

theorem extractPhase_shape (env : Env) (q0 : String) (i : Nat) (st : RState)
    (urls : List String) :
    ∃ srcNew tail,
      (stateOf (extractPhase env q0 i st urls)).visited_urls = st.visited_urls ∧
      (stateOf (extractPhase env q0 i st urls)).scrapeTrace
        = st.scrapeTrace ++ urls ∧
      (stateOf (extractPhase env q0 i st urls)).qgenCalls = st.qgenCalls ∧
      (stateOf (extractPhase env q0 i st urls)).all_sources
        = st.all_sources ++ srcNew ∧
      (∀ u ∈ srcNew, u ∈ urls) ∧
      (stateOf (extractPhase env q0 i st urls)).all_learnings
        = st.all_learnings ++ tail ∧
      (((stateOf (extractPhase env q0 i st urls)).final_directions
          = st.final_directions ∧
        (stateOf (extractPhase env q0 i st urls)).synthTrace = st.synthTrace) ∨
       (stateOf (extractPhase env q0 i st urls)).synthTrace
          = st.synthTrace
              ++ [(stateOf (extractPhase env q0 i st urls)).final_directions]) := by
  by_cases hd : scrapedDataFor env i urls = []
  · refine ⟨[], [], ?_⟩
    simp [extractPhase, hd]
  · obtain ⟨tail, h1, h2, h3, h4, h5, h6⟩ :=
      synthPhase_shape env q0 i
        { st with scrapeTrace := st.scrapeTrace ++ urls }
        (scrapedDataFor env i urls)
    refine ⟨(scrapedDataFor env i urls).map Prod.fst, tail, ?_⟩
    simp only [extractPhase, if_neg hd]
    refine ⟨by simpa using h1, by simpa using h2, by simpa using h3,
      by simpa using h4, ?_, by simpa using h5, by simpa using h6⟩
    intro u hu
    obtain ⟨d, hd', rfl⟩ := List.mem_map.mp hu
    exact scrapedDataFor_fst_mem env i urls d hd'

theorem stepAfterQueries_shape (env : Env) (q0 : String) (i : Nat)
    (st : RState) (qs : List String) :
    ∃ add srcNew tail,
      (stateOf (stepAfterQueries env q0 i st qs)).visited_urls
        = st.visited_urls ++ add ∧
      add.Nodup ∧ (∀ u ∈ add, u ∉ st.visited_urls) ∧
      (stateOf (stepAfterQueries env q0 i st qs)).scrapeTrace
        = st.scrapeTrace ++ add ∧
      (stateOf (stepAfterQueries env q0 i st qs)).qgenCalls = st.qgenCalls ∧
      (stateOf (stepAfterQueries env q0 i st qs)).all_sources
        = st.all_sources ++ srcNew ∧
      (∀ u ∈ srcNew, u ∈ add) ∧
      (stateOf (stepAfterQueries env q0 i st qs)).all_learnings
        = st.all_learnings ++ tail ∧
      (((stateOf (stepAfterQueries env q0 i st qs)).final_directions
          = st.final_directions ∧
        (stateOf (stepAfterQueries env q0 i st qs)).synthTrace
          = st.synthTrace) ∨
       (stateOf (stepAfterQueries env q0 i st qs)).synthTrace
          = st.synthTrace
              ++ [(stateOf (stepAfterQueries env q0 i st qs)).final_directions]) := by
  obtain ⟨add, heq, hnodup, hfresh⟩ :=
    addNewUrls_spec
      (((List.range qs.length).map (fun k => find_urls (env.searchRaw i k) 2)).flatten)
      [] st.visited_urls
  by_cases hadd : add = []
  · subst hadd
    refine ⟨[], [], [], ?_⟩
    simp [stepAfterQueries, dedupNewUrls, heq]
  · obtain ⟨srcNew, tail, h1, h2, h3, h4, h5, h6, h7⟩ :=
      extractPhase_shape env q0 i
        { st with visited_urls := st.visited_urls ++ add } add
    refine ⟨add, srcNew, tail, ?_⟩
    simp only [stepAfterQueries, dedupNewUrls, heq, List.nil_append, if_neg hadd]
    exact ⟨by simpa using h1, hnodup, hfresh, by simpa using h2,
      by simpa using h3, by simpa using h4, h5, by simpa using h6,
      by simpa using h7⟩

theorem researchIter_shape (env : Env) (q0 : String) (b : Nat) (st : RState)
    (i : Nat) :
    ∃ add srcNew tail,
      (stateOf (researchIter env q0 b st i)).visited_urls
        = st.visited_urls ++ add ∧
      add.Nodup ∧ (∀ u ∈ add, u ∉ st.visited_urls) ∧
      (stateOf (researchIter env q0 b st i)).scrapeTrace
        = st.scrapeTrace ++ add ∧
      (stateOf (researchIter env q0 b st i)).qgenCalls = st.qgenCalls + 1 ∧
      (stateOf (researchIter env q0 b st i)).all_sources
        = st.all_sources ++ srcNew ∧
      (∀ u ∈ srcNew, u ∈ add) ∧
      (stateOf (researchIter env q0 b st i)).all_learnings
        = st.all_learnings ++ tail ∧
      (((stateOf (researchIter env q0 b st i)).final_directions
          = st.final_directions ∧
        (stateOf (researchIter env q0 b st i)).synthTrace = st.synthTrace) ∨
       (stateOf (researchIter env q0 b st i)).synthTrace
          = st.synthTrace
              ++ [(stateOf (researchIter env q0 b st i)).final_directions]) := by
  cases hq : generate_search_queries q0 st.all_learnings b (env.qgen i) with
  | error e =>
    refine ⟨[], [], [], ?_⟩
    simp [researchIter, hq, bumpQgen]
  | ok qs =>
    obtain ⟨add, srcNew, tail, h1, h2, h3, h4, h5, h6, h7, h8, h9⟩ :=
      stepAfterQueries_shape env q0 i (bumpQgen st) qs
    refine ⟨add, srcNew, tail, ?_⟩
    simp only [researchIter, hq]
    exact ⟨by simpa [bumpQgen] using h1, h2, by simpa [bumpQgen] using h3,
      by simpa [bumpQgen] using h4, by simpa [bumpQgen] using h5,
      by simpa [bumpQgen] using h6, h7, by simpa [bumpQgen] using h8,
      by simpa [bumpQgen] using h9⟩

/-- Generic invariant lifting: a property preserved by every iteration
(also across an aborting iteration, whose escaping state `stateOf`
captures) holds of the state the loop reaches. -/
theorem loopFrom_inv (env : Env) (q0 : String) (b : Nat) (P : RState → Prop)
    (hstep : ∀ i st, P st → P (stateOf (researchIter env q0 b st i))) :
    ∀ n i st, P st → P (stateOf (loopFrom env q0 b i n st)) := by
  intro n
  induction n with
  | zero =>
    intro i st h
    simpa [loopFrom] using h
  | succ n ih =>
    intro i st h
    cases hr : researchIter env q0 b st i with
    | error st' =>
      have := hstep i st h
      rw [hr] at this
      simpa [loopFrom, hr] using this
    | ok st' =>
      have := hstep i st h
      rw [hr] at this
      simpa [loopFrom, hr] using ih (i + 1) st' (by simpa using this)

/-- Generic completion lifting: a property that lets every iteration finish
normally and is preserved by it lets the whole loop finish normally. -/
theorem loopFrom_ok_inv (env : Env) (q0 : String) (b : Nat)
    (P : RState → Prop)
    (hstep : ∀ i st, P st →
      ∃ st', researchIter env q0 b st i = Except.ok st' ∧ P st') :
    ∀ n i st, P st →
      ∃ st', loopFrom env q0 b i n st = Except.ok st' ∧ P st' := by
  intro n
  induction n with
  | zero =>
    intro i st h
    exact ⟨st, by simp [loopFrom], h⟩
  | succ n ih =>
    intro i st h
    obtain ⟨st1, hr, h1⟩ := hstep i st h
    obtain ⟨st', hl, h'⟩ := ih (i + 1) st1 h1
    exact ⟨st', by simp [loopFrom, hr, hl], h'⟩

/-- When neither the query-generation nor the synthesis model call of
iteration `i` raises, the iteration finishes normally and makes exactly one
Query-Expander call. -/
theorem researchIter_ok_of_noerr (env : Env) (q0 : String) (b : Nat)
    (st : RState) (i : Nat)
    (hq : env.qgen i ≠ GeminiOutcome.exn)
    (hs : env.synth i ≠ GeminiOutcome.exn) :
    ∃ st', researchIter env q0 b st i = Except.ok st' := by
  have hgen := generate_search_queries_eq q0 st.all_learnings b (env.qgen i) hq
  simp only [researchIter, hgen]
  set st1 := bumpQgen st with hst1
  obtain ⟨add, heq, -, -⟩ :=
    addNewUrls_spec
      (((List.range (queriesFor (env.qgen i) b).length).map
        (fun k => find_urls (env.searchRaw i k) 2)).flatten)
      [] st1.visited_urls
  simp only [stepAfterQueries, dedupNewUrls, heq, List.nil_append]
  by_cases hadd : add = []
  · simp only [hadd, if_pos rfl]
    exact ⟨_, rfl⟩
  · simp only [if_neg hadd]
    by_cases hd : scrapedDataFor env i add = []
    · simp only [extractPhase, if_pos hd]
      exact ⟨_, rfl⟩
    · simp only [extractPhase, if_neg hd]
      obtain ⟨r, hr⟩ := summarize_ok_of_ne_exn env.jsonLoads (env.synth i) q0
        ({ st1 with visited_urls := st1.visited_urls ++ add
                    scrapeTrace := st1.scrapeTrace ++ add }).all_learnings
        (joinWith "\n\n---\n\n" ((scrapedDataFor env i add).map Prod.snd)) hs
      obtain ⟨nl, nd⟩ := r
      simp only [synthPhase, hr]
      exact ⟨_, rfl⟩

/-- Under no-transport-error hypotheses the loop finishes normally and
counts exactly one Query-Expander call per remaining iteration. -/
theorem loopFrom_qgenCalls (env : Env) (q0 : String) (b : Nat)
    (hq : ∀ i, env.qgen i ≠ GeminiOutcome.exn)
    (hs : ∀ i, env.synth i ≠ GeminiOutcome.exn) :
    ∀ n i st, ∃ st', loopFrom env q0 b i n st = Except.ok st' ∧
      st'.qgenCalls = st.qgenCalls + n := by
  intro n
  induction n with
  | zero =>
    intro i st
    exact ⟨st, by simp [loopFrom]⟩
  | succ n ih =>
    intro i st
    obtain ⟨st1, hr⟩ := researchIter_ok_of_noerr env q0 b st i (hq i) (hs i)
    have h1 : st1.qgenCalls = st.qgenCalls + 1 := by
      obtain ⟨add, srcNew, tail, -, -, -, -, hcount, -, -, -, -⟩ :=
        researchIter_shape env q0 b st i
      rw [hr] at hcount
      simpa using hcount
    obtain ⟨st', hl, h'⟩ := ih (i + 1) st1
    refine ⟨st', by simp [loopFrom, hr, hl], ?_⟩
    rw [h', h1]
    omega

theorem flatten_nil_of_all_nil {α : Type} :
    ∀ (l : List (List α)), (∀ x ∈ l, x = []) → l.flatten = [] := by
  intro l
  induction l with
  | nil => intro _; rfl
  | cons x xs ih =>
    intro h
    have hx : x = [] := h x (by simp)
    have hxs : xs.flatten = [] := ih (fun y hy => h y (by simp [hy]))
    simp [hx, hxs]

/-- An iteration that starves (no generated queries, or no URLs from any
search, or no successful extraction) finishes normally and leaves the
learnings, sources and directions untouched, provided its query-generation
call does not raise. -/
theorem researchIter_starved (env : Env) (q0 : String) (b : Nat)
    (st : RState) (i : Nat)
    (hq : env.qgen i ≠ GeminiOutcome.exn)
    (hstarve : queriesFor (env.qgen i) b = [] ∨
      (∀ k, find_urls (env.searchRaw i k) 2 = []) ∨
      (∀ u, scrape_content u (env.scrape i u) = none)) :
    ∃ st', researchIter env q0 b st i = Except.ok st' ∧
      st'.all_learnings = st.all_learnings ∧
      st'.all_sources = st.all_sources ∧
      st'.final_directions = st.final_directions := by
  have hgen := generate_search_queries_eq q0 st.all_learnings b (env.qgen i) hq
  simp only [researchIter, hgen]
  rcases hstarve with hA | hB | hC
  · rw [hA]
    simp only [stepAfterQueries, List.length_nil, List.range_zero, List.map_nil,
      List.flatten_nil, dedupNewUrls, addNewUrls]
    exact ⟨_, rfl, rfl, rfl, rfl⟩
  · have hres : (((List.range (queriesFor (env.qgen i) b).length).map
        (fun k => find_urls (env.searchRaw i k) 2)).flatten) = [] := by
      apply flatten_nil_of_all_nil
      intro x hx
      obtain ⟨k, -, rfl⟩ := List.mem_map.mp hx
      exact hB k
    simp only [stepAfterQueries, hres, dedupNewUrls, addNewUrls]
    exact ⟨_, rfl, rfl, rfl, rfl⟩
  · obtain ⟨add, heq, -, -⟩ :=
      addNewUrls_spec
        (((List.range (queriesFor (env.qgen i) b).length).map
          (fun k => find_urls (env.searchRaw i k) 2)).flatten)
        [] (bumpQgen st).visited_urls
    simp only [stepAfterQueries, dedupNewUrls, heq, List.nil_append]
    by_cases hadd : add = []
    · simp only [hadd, if_pos rfl]
      exact ⟨_, rfl, rfl, rfl, rfl⟩
    · simp only [if_neg hadd]
      have hdata : scrapedDataFor env i add = [] := by
        simp only [scrapedDataFor]
        apply List.filterMap_eq_nil_iff.mpr
        intro r hr
        obtain ⟨u, -, rfl⟩ := List.mem_map.mp hr
        rw [hC u]
        rfl
      simp only [extractPhase, if_pos hdata]
      exact ⟨_, rfl, rfl, rfl, rfl⟩

/-- Inversion of a successful run: the loop finished with some state `st`,
the report call yielded some `r`, and the outcome is assembled from them. -/
theorem perform_ok_inversion (env : Env) (q : String) (d b : Nat)
    (ex : Option (List String)) (out : ResearchOutcome)
    (h : perform_deep_research env q d b ex = Except.ok out) :
    ∃ st r, runLoop env q b d (initState (ex.getD [])) = Except.ok st ∧
      generate_final_report env.report q st.all_learnings = Except.ok r ∧
      out = { report := r, sources := st.all_sources.dedup,
              findings := st.all_learnings,
              directions := st.final_directions } := by
  simp only [perform_deep_research] at h
  cases hrl : runLoop env q b d (initState (ex.getD [])) with
  | error st' =>
    simp only [hrl] at h
    exact absurd h (by simp)
  | ok st =>
    simp only [hrl] at h
    cases hrep : generate_final_report env.report q st.all_learnings with
    | error e =>
      simp only [hrep, except_map_error] at h
      exact absurd h (by simp)
    | ok r =>
      simp only [hrep, except_map_ok, Except.ok.injEq] at h
      exact ⟨st, r, rfl, hrep, h.symm⟩

@[simp] theorem except_isOk_ok {α ε : Type} (a : α) :
    (Except.ok a : Except ε α).isOk = true := rfl

/-- Under no-transport-error hypotheses for all the language-model calls the
run completes normally, whatever the search, scrape and JSON-parse outcomes
are. -/
theorem run_ok_of_no_llm_exn (env : Env) (q : String) (d b : Nat)
    (ex : Option (List String))
    (hq : ∀ i, env.qgen i ≠ GeminiOutcome.exn)
    (hs : ∀ i, env.synth i ≠ GeminiOutcome.exn)
    (hr : env.report ≠ GeminiOutcome.exn) :
    (perform_deep_research env q d b ex).isOk = true := by
  obtain ⟨st, hl, -⟩ := loopFrom_qgenCalls env q b hq hs d 0 (initState (ex.getD []))
  obtain ⟨r, hrep⟩ := generate_final_report_ok_of_ne_exn env.report q st.all_learnings hr
  simp [perform_deep_research, runLoop, hl, hrep]

/-- The learnings of the loop's final state extend the initial learnings. -/
theorem loop_learnings_prefix (env : Env) (q0 : String) (b d : Nat)
    (ex : List String) :
    ∃ tail, (stateOf (runLoop env q0 b d (initState ex))).all_learnings
      = ex ++ tail := by
  have := loopFrom_inv env q0 b (fun st => ∃ t, st.all_learnings = ex ++ t)
    (fun i st h => by
      obtain ⟨t, ht⟩ := h
      obtain ⟨add, srcNew, tail, h1, h2, h3, h4, h5, h6, h7, h8, h9⟩ :=
        researchIter_shape env q0 b st i
      exact ⟨t ++ tail, by rw [h8, ht, List.append_assoc]⟩)
    d 0 (initState ex) ⟨[], by simp [initState]⟩
  exact this

/-- The dedup invariant of the loop: the ghost extractor trace coincides
with `visited_urls`, is duplicate-free, and contains all sources. -/
theorem loop_dedup_inv (env : Env) (q0 : String) (b d : Nat)
    (ex : List String) :
    (stateOf (runLoop env q0 b d (initState ex))).visited_urls
      = (stateOf (runLoop env q0 b d (initState ex))).scrapeTrace ∧
    (stateOf (runLoop env q0 b d (initState ex))).visited_urls.Nodup ∧
    ∀ u ∈ (stateOf (runLoop env q0 b d (initState ex))).all_sources,
      u ∈ (stateOf (runLoop env q0 b d (initState ex))).visited_urls := by
  have := loopFrom_inv env q0 b
    (fun st => st.visited_urls = st.scrapeTrace ∧ st.visited_urls.Nodup ∧
      ∀ u ∈ st.all_sources, u ∈ st.visited_urls)
    (fun i st h => by
      obtain ⟨hvt, hnd, hsrc⟩ := h
      obtain ⟨add, srcNew, tail, h1, h2, h3, h4, h5, h6, h7, h8, h9⟩ :=
        researchIter_shape env q0 b st i
      refine ⟨by rw [h1, h4, hvt], ?_, ?_⟩
      · rw [h1]
        exact List.Nodup.append hnd h2 (fun a ha hb => h3 a hb ha)
      · intro u hu
        rw [h6] at hu
        rcases List.mem_append.mp hu with hu | hu
        · rw [h1]
          exact List.mem_append_left add (hsrc u hu)
        · rw [h1]
          exact List.mem_append_right st.visited_urls (h7 u hu))
    d 0 (initState ex) ⟨rfl, List.nodup_nil, by simp [initState]⟩
  exact this

/-- The directions invariant of the loop: at every point the current
directions are exactly the last completed synthesis' directions (or the
initial empty value when no synthesis has completed). -/
theorem loop_directions_inv (env : Env) (q0 : String) (b d : Nat)
    (ex : List String) :
    (stateOf (runLoop env q0 b d (initState ex))).final_directions
      = ((stateOf (runLoop env q0 b d (initState ex))).synthTrace.getLast?).getD [] := by
  have := loopFrom_inv env q0 b
    (fun st => st.final_directions = (st.synthTrace.getLast?).getD [])
    (fun i st h => by
      obtain ⟨add, srcNew, tail, h1, h2, h3, h4, h5, h6, h7, h8, h9⟩ :=
        researchIter_shape env q0 b st i
      rcases h9 with ⟨hdir, htr⟩ | htr
      · rw [hdir, htr, h]
      · rw [htr]
        simp)
    d 0 (initState ex) (by simp [initState])
  exact this

/-! ### Claim theorems -/

/-- C1 (counterexample): the claim says only a Report-Composer failure can
propagate out of `run`, but a transport error raised inside one synthesis
call aborts the whole run: in `synthErrEnv` the pipeline reaches synthesis,
the synthesis API call raises, and `perform_deep_research` raises even
though the report call would have succeeded. -/
theorem run_raises_on_synthesis_transport_error :
    perform_deep_research synthErrEnv "q" 1 2 none = Except.error () := by rfl

/-- C1 (amended): search failures, scrape failures and malformed or blocked
model responses never make `run` raise; only a raised transport error in a
language-model call (query expansion, synthesis, or report composition)
propagates to the caller.  Formally: when no language-model call raises, the
run completes normally whatever the search, scrape and JSON-parse outcomes
are. -/
theorem run_survives_search_scrape_and_parse_failures (env : Env)
    (q : String) (d b : Nat) (ex : Option (List String))
    (hq : ∀ i, env.qgen i ≠ GeminiOutcome.exn)
    (hs : ∀ i, env.synth i ≠ GeminiOutcome.exn)
    (hr : env.report ≠ GeminiOutcome.exn) :
    (perform_deep_research env q d b ex).isOk = true :=
  run_ok_of_no_llm_exn env q d b ex hq hs hr

theorem run_survives_search_scrape_and_parse_failures_witness :
    (perform_deep_research starveEnv "q" 2 2 none).isOk = true :=
  run_survives_search_scrape_and_parse_failures starveEnv "q" 2 2 none
    (fun _ => by simp [starveEnv]) (fun _ => by simp [starveEnv])
    (by simp [starveEnv])

/-- C2 (confirmed): the ghost trace of all Content-Extractor invocations of
a session is duplicate-free (a URL returned twice in the same batch or in a
later batch is scraped at most once), and every URL in the returned sources
is a member of the final `visited_urls`. -/
theorem url_dedup_and_sources_subset (env : Env) (q : String) (d b : Nat)
    (ex : Option (List String)) :
    (stateOf (runLoop env q b d (initState (ex.getD [])))).scrapeTrace.Nodup ∧
    ∀ out : ResearchOutcome, perform_deep_research env q d b ex = Except.ok out →
      ∀ u ∈ out.sources,
        u ∈ (stateOf (runLoop env q b d (initState (ex.getD [])))).visited_urls := by
  obtain ⟨hvt, hnd, hsrc⟩ := loop_dedup_inv env q b d (ex.getD [])
  refine ⟨by rw [← hvt]; exact hnd, ?_⟩
  intro out hout u hu
  obtain ⟨st, r, hrl, hrep, hform⟩ := perform_ok_inversion env q d b ex out hout
  have hst : stateOf (runLoop env q b d (initState (ex.getD []))) = st := by
    rw [hrl]
    rfl
  subst hform
  have hu' : u ∈ st.all_sources.dedup := hu
  have hmem : u ∈ st.all_sources := List.mem_dedup.mp hu'
  rw [hst] at hsrc ⊢
  exact hsrc u hmem

theorem url_dedup_and_sources_subset_witness :
    (stateOf (runLoop happyEnv "q" 1 1 (initState []))).scrapeTrace.Nodup ∧
    ∀ out : ResearchOutcome,
      perform_deep_research happyEnv "q" 1 1 none = Except.ok out →
      ∀ u ∈ out.sources,
        u ∈ (stateOf (runLoop happyEnv "q" 1 1 (initState []))).visited_urls :=
  url_dedup_and_sources_subset happyEnv "q" 1 1 none

/-- C3 (confirmed): for every depth `d` the loop finishes after exactly `d`
iterations with exactly `d` Query-Expander calls, whatever the per-iteration
starvation (no queries, no new URLs, no successful extraction), as long as
no language-model call raises a transport error. -/
theorem depth_bound_exact_iterations (env : Env) (q0 : String) (b d : Nat)
    (ex : List String)
    (hq : ∀ i, env.qgen i ≠ GeminiOutcome.exn)
    (hs : ∀ i, env.synth i ≠ GeminiOutcome.exn) :
    ∃ st, runLoop env q0 b d (initState ex) = Except.ok st ∧
      st.qgenCalls = d := by
  obtain ⟨st, h1, h2⟩ := loopFrom_qgenCalls env q0 b hq hs d 0 (initState ex)
  refine ⟨st, h1, ?_⟩
  rw [h2]
  simp [initState]

theorem depth_bound_exact_iterations_witness :
    ∃ st, runLoop starveEnv "q" 2 3 (initState []) = Except.ok st ∧
      st.qgenCalls = 3 :=
  depth_bound_exact_iterations starveEnv "q" 2 3 []
    (fun _ => by simp [starveEnv]) (fun _ => by simp [starveEnv])

/-- C4 (confirmed): whenever the Query Expander returns a list it has length
at most `breadth`; when the model's text has at least `breadth` parseable
lines exactly `breadth` are returned; when the model responded with text the
result is exactly the parseable lines truncated to `breadth`, and a blocked
(empty) response yields the empty list. -/
theorem query_expander_breadth_bound (context : String)
    (learnings : List String) (breadth : Nat) (o : GeminiOutcome)
    (qs : List String)
    (h : generate_search_queries context learnings breadth o = Except.ok qs) :
    qs.length ≤ breadth ∧
    (∀ t, o = GeminiOutcome.response true t →
      qs = (parseQueries t).take breadth) ∧
    (∀ t, o = GeminiOutcome.response false t → qs = []) ∧
    (∀ t, o = GeminiOutcome.response true t →
      breadth ≤ (parseQueries t).length → qs.length = breadth) := by
  cases o with
  | exn => exact absurd h (by simp [generate_search_queries, callGeminiApi])
  | response hp t0 =>
    cases hp with
    | false =>
      simp only [generate_search_queries, callGeminiApi, except_map_ok,
        Except.ok.injEq] at h
      have hqs : qs = [] := by
        rw [← h, show parseQueries "" = [] from rfl, List.take_nil]
      subst hqs
      refine ⟨by simp, ?_, ?_, ?_⟩
      · intro t ht
        simp at ht
      · intro t ht
        rfl
      · intro t ht
        simp at ht
    | true =>
      simp only [generate_search_queries, callGeminiApi, except_map_ok,
        Except.ok.injEq] at h
      subst h
      refine ⟨?_, ?_, ?_, ?_⟩
      · rw [List.length_take]
        exact Nat.min_le_left _ _
      · intro t ht
        injection ht with h1 h2
        subst h2
        rfl
      · intro t ht
        simp at ht
      · intro t ht hlen
        injection ht with h1 h2
        subst h2
        rw [List.length_take]
        exact Nat.min_eq_left hlen

theorem query_expander_breadth_bound_witness :
    (["a", "b", "c"] : List String).length ≤ 3 ∧
    (∀ t, GeminiOutcome.response true "a\nb\nc\nd\ne"
        = GeminiOutcome.response true t →
      ["a", "b", "c"] = (parseQueries t).take 3) ∧
    (∀ t, GeminiOutcome.response true "a\nb\nc\nd\ne"
        = GeminiOutcome.response false t → (["a", "b", "c"] : List String) = []) ∧
    (∀ t, GeminiOutcome.response true "a\nb\nc\nd\ne"
        = GeminiOutcome.response true t →
      3 ≤ (parseQueries t).length → (["a", "b", "c"] : List String).length = 3) :=
  query_expander_breadth_bound "c" [] 3
    (GeminiOutcome.response true "a\nb\nc\nd\ne") ["a", "b", "c"] (by rfl)

/-- C5 (confirmed): the accumulated findings are append-only: every
iteration extends them on the right (so every element keeps its position),
and over a whole run the final findings extend the initial ones. -/
theorem findings_append_only (env : Env) (q0 : String) (b i d : Nat)
    (st : RState) (ex : List String) :
    (∃ tail, (stateOf (researchIter env q0 b st i)).all_learnings
      = st.all_learnings ++ tail) ∧
    (∃ tail, (stateOf (runLoop env q0 b d (initState ex))).all_learnings
      = ex ++ tail) := by
  constructor
  · obtain ⟨add, srcNew, tail, h1, h2, h3, h4, h5, h6, h7, h8, h9⟩ :=
      researchIter_shape env q0 b st i
    exact ⟨tail, h8⟩
  · exact loop_learnings_prefix env q0 b d ex

/-- C6 (confirmed): when at least one iteration completed synthesis, the
directions of the returned outcome are exactly the directions of the last
completed synthesis (the last entry of the ghost synthesis trace) — an
overwrite, not a union. -/
theorem directions_overwrite_last_synthesis (env : Env) (q : String)
    (d b : Nat) (ex : Option (List String)) (out : ResearchOutcome)
    (h : perform_deep_research env q d b ex = Except.ok out)
    (hne : (stateOf (runLoop env q b d (initState (ex.getD [])))).synthTrace ≠ []) :
    (stateOf (runLoop env q b d (initState (ex.getD [])))).synthTrace.getLast?
      = some out.directions := by
  obtain ⟨st, r, hrl, hrep, hform⟩ := perform_ok_inversion env q d b ex out h
  have hst : stateOf (runLoop env q b d (initState (ex.getD []))) = st := by
    rw [hrl]
    rfl
  have hdir := loop_directions_inv env q b d (ex.getD [])
  rw [hst] at hdir hne ⊢
  subst hform
  show st.synthTrace.getLast? = some st.final_directions
  cases hlast : st.synthTrace.getLast? with
  | none => exact absurd (List.getLast?_eq_none_iff.mp hlast) hne
  | some x =>
    rw [hdir, hlast]
    rfl

theorem directions_overwrite_last_synthesis_witness :
    (stateOf (runLoop happyEnv "q" 1 1 (initState []))).synthTrace.getLast?
      = some (ResearchOutcome.mk "R" ["u1"] ["L1"] ["D1"]).directions :=
  directions_overwrite_last_synthesis happyEnv "q" 1 1 none
    ⟨"R", ["u1"], ["L1"], ["D1"]⟩ (by rfl) (by decide)

/-- C7 (counterexample): the claim says the Report Composer never raises,
but a transport error raised by the model call propagates out of
`generate_final_report` when the findings are non-empty (no try/except
around the call on src/utils/llm.py line 207). -/
theorem report_composer_raises_on_transport_error :
    generate_final_report GeminiOutcome.exn "q" ["f1"] = Except.error () := by rfl

/-- C7 (amended): with empty findings the Composer returns the fixed
no-information template without consulting the model (the result is the
template for every model behaviour, including a raising one), and when the
model call returns empty text it returns the deterministic bullet-list
fallback; only a raised transport error of the model call propagates. -/
theorem report_composer_empty_and_fallback (o : GeminiOutcome) (q : String)
    (ls : List String) (hne : ls ≠ [])
    (hempty : callGeminiApi o = Except.ok "") :
    generate_final_report o q [] = Except.ok (noInfoReport q) ∧
    generate_final_report o q ls = Except.ok (fallbackReport ls) := by
  constructor
  · simp [generate_final_report]
  · simp [generate_final_report, if_neg hne, hempty]

theorem report_composer_empty_and_fallback_witness :
    generate_final_report (GeminiOutcome.response false "x") "q" []
      = Except.ok (noInfoReport "q") ∧
    generate_final_report (GeminiOutcome.response false "x") "q" ["f"]
      = Except.ok (fallbackReport ["f"]) :=
  report_composer_empty_and_fallback (GeminiOutcome.response false "x") "q"
    ["f"] (by simp) (by rfl)

/-- C8 (confirmed): every failure mode of the Content Extractor — HTTP
status error, network error, any other raised exception, non-HTML content
type, missing body, and empty extracted text — yields the same `none`
failure marker, and a run in which every fetch returns an HTTP error still
completes normally (given no language-model transport error). -/
theorem extraction_failures_collapse_and_run_completes (url ct : String)
    (elems : List (String × String))
    (body : Option (List (String × String))) :
    scrape_content url ScrapeOutcome.httpStatusError = none ∧
    scrape_content url ScrapeOutcome.requestError = none ∧
    scrape_content url ScrapeOutcome.otherError = none ∧
    (containsSub "html".data (pyLower ct).data = false →
      scrape_content url (ScrapeOutcome.response ct body) = none) ∧
    scrape_content url (ScrapeOutcome.response ct none) = none ∧
    (extractTextParts elems = [] →
      scrape_content url (ScrapeOutcome.response ct (some elems)) = none) ∧
    (∀ env : Env, ∀ q : String, ∀ d b : Nat, ∀ ex : Option (List String),
      (∀ i, env.qgen i ≠ GeminiOutcome.exn) →
      (∀ i, env.synth i ≠ GeminiOutcome.exn) →
      env.report ≠ GeminiOutcome.exn →
      (∀ i u, env.scrape i u = ScrapeOutcome.httpStatusError) →
      (perform_deep_research env q d b ex).isOk = true) := by
  refine ⟨rfl, rfl, rfl, ?_, ?_, ?_, ?_⟩
  · intro hct
    simp [scrape_content, hct]
  · by_cases hct : containsSub "html".data (pyLower ct).data
    · simp [scrape_content, hct]
    · simp [scrape_content, hct]
  · intro hparts
    by_cases hct : containsSub "html".data (pyLower ct).data
    · simp [scrape_content, hct, hparts, joinWith]
    · simp [scrape_content, hct]
  · intro env q d b ex hq hs hr _
    exact run_ok_of_no_llm_exn env q d b ex hq hs hr

theorem extraction_failures_collapse_and_run_completes_witness :
    scrape_content "http://x" ScrapeOutcome.httpStatusError = none ∧
    scrape_content "http://x" ScrapeOutcome.requestError = none ∧
    scrape_content "http://x" ScrapeOutcome.otherError = none ∧
    (containsSub "html".data (pyLower "application/json").data = false →
      scrape_content "http://x" (ScrapeOutcome.response "application/json" none)
        = none) ∧
    scrape_content "http://x" (ScrapeOutcome.response "application/json" none)
      = none ∧
    (extractTextParts [] = [] →
      scrape_content "http://x" (ScrapeOutcome.response "application/json" (some []))
        = none) ∧
    (∀ env : Env, ∀ q : String, ∀ d b : Nat, ∀ ex : Option (List String),
      (∀ i, env.qgen i ≠ GeminiOutcome.exn) →
      (∀ i, env.synth i ≠ GeminiOutcome.exn) →
      env.report ≠ GeminiOutcome.exn →
      (∀ i u, env.scrape i u = ScrapeOutcome.httpStatusError) →
      (perform_deep_research env q d b ex).isOk = true) :=
  extraction_failures_collapse_and_run_completes "http://x" "application/json"
    [] none

/-- C9 (confirmed): the run works on a copy of the caller's existing
findings (the embedding is value-passing, mirroring `list(existing_learnings)`
on src/research_logic.py line 20), and the findings of the returned outcome
extend the given existing findings on the right, preserving their order and
positions. -/
theorem existing_findings_prefix_preserved (env : Env) (q : String)
    (d b : Nat) (ex : List String) (out : ResearchOutcome)
    (h : perform_deep_research env q d b (some ex) = Except.ok out) :
    ∃ tail, out.findings = ex ++ tail := by
  obtain ⟨st, r, hrl, hrep, hform⟩ := perform_ok_inversion env q d b (some ex) out h
  obtain ⟨tail, htail⟩ := loop_learnings_prefix env q b d ex
  have hst : stateOf (runLoop env q b d (initState ex)) = st := by
    rw [show runLoop env q b d (initState ex) = Except.ok st from hrl]
    rfl
  subst hform
  rw [hst] at htail
  exact ⟨tail, htail⟩

theorem existing_findings_prefix_preserved_witness :
    ∃ tail, (ResearchOutcome.mk "R" [] ["k1"] []).findings = ["k1"] ++ tail :=
  existing_findings_prefix_preserved starveEnv "q" 1 1 ["k1"]
    ⟨"R", [], ["k1"], []⟩ (by rfl)

/-- C10 (confirmed): when every iteration starves (no generated queries, or
no URLs from any search, or no successful extraction) and neither the
query-generation calls nor the report call raise, the run still returns a
complete outcome whose findings equal the existing findings, with empty
sources and empty directions. -/
theorem starved_run_returns_existing_findings (env : Env) (q : String)
    (d b : Nat) (ex : Option (List String))
    (hq : ∀ i, env.qgen i ≠ GeminiOutcome.exn)
    (hr : env.report ≠ GeminiOutcome.exn)
    (hstarve : ∀ i, queriesFor (env.qgen i) b = [] ∨
      (∀ k, find_urls (env.searchRaw i k) 2 = []) ∨
      (∀ u, scrape_content u (env.scrape i u) = none)) :
    ∃ r, perform_deep_research env q d b ex =
      Except.ok { report := r, sources := [], findings := ex.getD [],
                  directions := [] } := by
  obtain ⟨st, hok, h1, h2, h3⟩ := loopFrom_ok_inv env q b
    (fun st => st.all_learnings = ex.getD [] ∧ st.all_sources = [] ∧
      st.final_directions = [])
    (fun i st h => by
      obtain ⟨h1, h2, h3⟩ := h
      obtain ⟨st', hok, hl, hsrc, hdir⟩ :=
        researchIter_starved env q b st i (hq i) (hstarve i)
      exact ⟨st', hok, by rw [hl, h1], by rw [hsrc, h2], by rw [hdir, h3]⟩)
    d 0 (initState (ex.getD [])) ⟨rfl, rfl, rfl⟩
  obtain ⟨r, hrep⟩ := generate_final_report_ok_of_ne_exn env.report q
    st.all_learnings hr
  rw [h1] at hrep
  refine ⟨r, ?_⟩
  simp [perform_deep_research, runLoop, hok, hrep, h1, h2, h3]

theorem starved_run_returns_existing_findings_witness :
    ∃ r, perform_deep_research starveEnv "q" 2 1 (some ["a"]) =
      Except.ok { report := r, sources := [], findings := ["a"],
                  directions := [] } :=
  starved_run_returns_existing_findings starveEnv "q" 2 1 (some ["a"])
    (fun _ => by simp [starveEnv]) (by simp [starveEnv])
    (fun _ => Or.inr (Or.inl (fun _ => rfl)))

end Avrora
